import Mathlib

/-
  Verification development for a D2Q9 lattice-Boltzmann fluid simulation.

  The program (src/lbm_simulation.py, src/main_v1.py) evolves a distribution
  field F of shape Ny × Nx × 9 through, per timestep:
    1. open inlet/outlet boundary extrapolation on the first/last column,
    2. streaming: each direction plane rolled by its integer velocity with
       periodic wrap (np.roll),
    3. capture of the populations at obstacle cells, reordering by the
       reversal permutation [0,5,6,7,8,1,2,3,4],
    4. macroscopic moments rho, ux, uy from the still-unreflected field,
    5. write-back of the reversed populations at obstacle cells and zeroing
       of ux, uy there,
    6. BGK collision F += -(1/tau) * (F - Feq).

  The embedding works over exact rationals; grid indices live in
  ZMod Ny × ZMod Nx so that the periodic wrap of np.roll and the negative
  column indices -1, -2 of the boundary stage are the ring operations.
-/

namespace LBM

/-- The x-components of the 9 discrete lattice velocities
(`cxs = np.array([0, 0, 1, 1, 1, 0, -1, -1, -1])`). -/
def cxs : Fin 9 → ℤ := ![0, 0, 1, 1, 1, 0, -1, -1, -1]

/-- The y-components of the 9 discrete lattice velocities
(`cys = np.array([0, 1, 1, 0, -1, -1, -1, 0, 1])`). -/
def cys : Fin 9 → ℤ := ![0, 1, 1, 0, -1, -1, -1, 0, 1]

/-- The 9 lattice weights
(`weights = np.array([4/9, 1/9, 1/36, 1/9, 1/36, 1/9, 1/36, 1/9, 1/36])`). -/
def weights : Fin 9 → ℚ := ![4/9, 1/9, 1/36, 1/9, 1/36, 1/9, 1/36, 1/9, 1/36]

/-- The bounce-back reversal permutation, the index list
`[0, 5, 6, 7, 8, 1, 2, 3, 4]` used in `bndryF[:, [0,5,6,7,8,1,2,3,4]]`. -/
def rev : Fin 9 → Fin 9 := ![0, 5, 6, 7, 8, 1, 2, 3, 4]

/-- The distribution field F: one rational population per cell (row y,
column x) and lattice direction, shape Ny × Nx × 9. -/
abbrev DistField (Ny Nx : ℕ) := ZMod Ny → ZMod Nx → Fin 9 → ℚ

/-- A boolean obstacle mask of shape Ny × Nx (the `cylinder` array). -/
abbrev Mask (Ny Nx : ℕ) := ZMod Ny → ZMod Nx → Bool

variable {Ny Nx : ℕ}

/-- Boundary-condition stage, from
`F[:, -1, [6,7,8]] = F[:, -2, [6,7,8]]` and
`F[:, 0, [2,3,4]] = F[:, 1, [2,3,4]]`.  The two assignments touch disjoint
direction sets, so the sequential numpy updates equal this simultaneous
definition. -/
def applyBC (F : DistField Ny Nx) : DistField Ny Nx := fun y x i =>
  if x = -1 ∧ (i = 6 ∨ i = 7 ∨ i = 8) then F y (-2) i
  else if x = 0 ∧ (i = 2 ∨ i = 3 ∨ i = 4) then F y 1 i
  else F y x i

/-- Streaming stage: for each direction i,
`F[:,:,i] = np.roll(F[:,:,i], cx, axis=1)` then `np.roll(..., cy, axis=0)`;
`np.roll` by s satisfies `out[k] = in[(k - s) mod n]`. -/
def streamStep (F : DistField Ny Nx) : DistField Ny Nx := fun y x i =>
  F (y - (cys i : ZMod Ny)) (x - (cxs i : ZMod Nx)) i

/-- The just-streamed field of a timestep: streaming applied after the
boundary extrapolation. -/
def preF (F : DistField Ny Nx) : DistField Ny Nx := streamStep (applyBC F)

/-- Density moment `rho = np.sum(F, axis=2)`. -/
def rhoOf (F : DistField Ny Nx) (y : ZMod Ny) (x : ZMod Nx) : ℚ :=
  ∑ i : Fin 9, F y x i

/-- Velocity moment `ux = np.sum(F * cxs, axis=2) / rho`. -/
def uxOf (F : DistField Ny Nx) (y : ZMod Ny) (x : ZMod Nx) : ℚ :=
  (∑ i : Fin 9, F y x i * (cxs i : ℚ)) / rhoOf F y x

/-- Velocity moment `uy = np.sum(F * cys, axis=2) / rho`. -/
def uyOf (F : DistField Ny Nx) (y : ZMod Ny) (x : ZMod Nx) : ℚ :=
  (∑ i : Fin 9, F y x i * (cys i : ℚ)) / rhoOf F y x

/-- Bounce-back write-back: `bndryF = F[cylinder, :].copy()` reordered by
`[0,5,6,7,8,1,2,3,4]` and written back with `F[cylinder, :] = bndryF`;
cells off the mask keep their streamed populations. -/
def bounceBack (cyl : Mask Ny Nx) (F : DistField Ny Nx) : DistField Ny Nx :=
  fun y x i => if cyl y x then F y x (rev i) else F y x i

/-- The density entering the collision stage: moments of the just-streamed
field, taken before the bounce-back write-back. -/
def stepRho (F : DistField Ny Nx) (y : ZMod Ny) (x : ZMod Nx) : ℚ :=
  rhoOf (preF F) y x

/-- The ux entering the collision stage: moment of the just-streamed field,
then `ux[cylinder] = 0`. -/
def stepUx (cyl : Mask Ny Nx) (F : DistField Ny Nx)
    (y : ZMod Ny) (x : ZMod Nx) : ℚ :=
  if cyl y x then 0 else uxOf (preF F) y x

/-- The uy entering the collision stage: moment of the just-streamed field,
then `uy[cylinder] = 0`. -/
def stepUy (cyl : Mask Ny Nx) (F : DistField Ny Nx)
    (y : ZMod Ny) (x : ZMod Nx) : ℚ :=
  if cyl y x then 0 else uyOf (preF F) y x

/-- Equilibrium distribution
`Feq[:,:,i] = rho * w * (1 + 3*(cx*ux+cy*uy) + 9*(cx*ux+cy*uy)**2/2
- 3*(ux**2+uy**2)/2)`. -/
def Feq (rho ux uy : ℚ) (i : Fin 9) : ℚ :=
  rho * weights i *
    (1 + 3 * ((cxs i : ℚ) * ux + (cys i : ℚ) * uy)
       + 9 * ((cxs i : ℚ) * ux + (cys i : ℚ) * uy) ^ 2 / 2
       - 3 * (ux ^ 2 + uy ^ 2) / 2)

/-- One full timestep of src/lbm_simulation.py: boundary extrapolation,
streaming, bounce-back write-back, then the BGK collision
`F += -(1/tau) * (F - Feq)` with rho taken pre-reflection and ux, uy
zeroed on the obstacle. -/
def stepField (tau : ℚ) (cyl : Mask Ny Nx) (F : DistField Ny Nx) :
    DistField Ny Nx := fun y x i =>
  bounceBack cyl (preF F) y x i
    + -(1 / tau) * (bounceBack cyl (preF F) y x i
        - Feq (stepRho F y x) (stepUx cyl F y x) (stepUy cyl F y x) i)

/-- Initial field `F = np.ones((Ny,Nx,NL)) + 0.01 * np.random.randn(...)`
followed by `F[:, :, 3] = 2.3`, with the Gaussian draw abstracted as an
explicit noise input (the seed determines it). -/
def initField (noise : DistField Ny Nx) : DistField Ny Nx := fun y x i =>
  if i = 3 then 2.3 else 1 + 0.01 * noise y x i

/-- Euclidean distance `np.sqrt((x2 - x1)**2 + (y2 - y1)**2)` between
(x1, y1) and (x2, y2), the `distance` helper of both source files. -/
noncomputable def distance (x1 y1 x2 y2 : ℝ) : ℝ :=
  Real.sqrt ((x2 - x1) ^ 2 + (y2 - y1) ^ 2)

/-- The obstacle mask: cell (x, y) is solid iff its squared Euclidean
distance to the centre (cx0, cy0) is below the square of the threshold
`cylinder_diameter` (so iff `distance(cx0, cy0, x, y) < r`, the source
comparison, as proved below). -/
def cylinderMask (Ny Nx : ℕ) (cx0 cy0 r : ℤ) : Mask Ny Nx := fun y x =>
  decide ((((x.val : ℤ) - cx0) ^ 2 + ((y.val : ℤ) - cy0) ^ 2) < r ^ 2)

/-- The mask of the concrete run: Nx = 400, Ny = 100, centre
(Nx // 4, Ny // 2) = (100, 50), threshold 13. -/
def scenarioA : Mask 100 400 := cylinderMask 100 400 100 50 13

/-- Squared velocity magnitude of the snapshot emitted after a step; the
emitted value is its square root, which is 0 exactly when this is 0. -/
def velMagSq (cyl : Mask Ny Nx) (F : DistField Ny Nx)
    (y : ZMod Ny) (x : ZMod Nx) : ℚ :=
  stepUx cyl F y x ^ 2 + stepUy cyl F y x ^ 2

end LBM

namespace LBMv1

open LBM (cxs cys weights rev DistField Mask)

variable {Ny Nx : ℕ}

/-- Boundary-condition lines of src/main_v1.py (textually the same two
assignments as in src/lbm_simulation.py). -/
def applyBC (F : DistField Ny Nx) : DistField Ny Nx := fun y x i =>
  if x = -1 ∧ (i = 6 ∨ i = 7 ∨ i = 8) then F y (-2) i
  else if x = 0 ∧ (i = 2 ∨ i = 3 ∨ i = 4) then F y 1 i
  else F y x i

/-- Streaming loop of src/main_v1.py. -/
def streamStep (F : DistField Ny Nx) : DistField Ny Nx := fun y x i =>
  F (y - (cys i : ZMod Ny)) (x - (cxs i : ZMod Nx)) i

/-- One full timestep of src/main_v1.py, translated with its own structure:
`bndryF = F[cylinder, :]` (boolean advanced indexing, which materialises a
copy, with no explicit `.copy()`), the moment computations, the write-back
and zeroing, and the out-of-place collision `F = F + -(1/tau)*(F - Feq)`. -/
def stepField (tau : ℚ) (cyl : Mask Ny Nx) (F : DistField Ny Nx) :
    DistField Ny Nx :=
  let F1 := streamStep (applyBC F)
  let bndryF := fun (y : ZMod Ny) (x : ZMod Nx) (i : Fin 9) => F1 y x (rev i)
  let rho := fun (y : ZMod Ny) (x : ZMod Nx) => ∑ i : Fin 9, F1 y x i
  let ux := fun (y : ZMod Ny) (x : ZMod Nx) =>
    (∑ i : Fin 9, F1 y x i * (cxs i : ℚ)) / rho y x
  let uy := fun (y : ZMod Ny) (x : ZMod Nx) =>
    (∑ i : Fin 9, F1 y x i * (cys i : ℚ)) / rho y x
  let F2 := fun (y : ZMod Ny) (x : ZMod Nx) (i : Fin 9) =>
    if cyl y x then bndryF y x i else F1 y x i
  let ux2 := fun (y : ZMod Ny) (x : ZMod Nx) => if cyl y x then 0 else ux y x
  let uy2 := fun (y : ZMod Ny) (x : ZMod Nx) => if cyl y x then 0 else uy y x
  let FeqA := fun (y : ZMod Ny) (x : ZMod Nx) (i : Fin 9) =>
    rho y x * weights i *
      (1 + 3 * ((cxs i : ℚ) * ux2 y x + (cys i : ℚ) * uy2 y x)
         + 9 * ((cxs i : ℚ) * ux2 y x + (cys i : ℚ) * uy2 y x) ^ 2 / 2
         - 3 * (ux2 y x ^ 2 + uy2 y x ^ 2) / 2)
  fun y x i => F2 y x i + -(1 / tau) * (F2 y x i - FeqA y x i)

end LBMv1

namespace LBM

/-- Reversal permutation applied twice is the identity on direction indices. -/
lemma rev_rev : ∀ i : Fin 9, rev (rev i) = i := by decide

/-- The reversal permutation as a permutation of the 9 directions. -/
def revEquiv : Equiv.Perm (Fin 9) := ⟨rev, rev, by decide, by decide⟩

/-- Summing a 9-vector along the reversal permutation equals summing it
directly. -/
lemma sum_comp_rev (f : Fin 9 → ℚ) : ∑ i : Fin 9, f (rev i) = ∑ i : Fin 9, f i :=
  Equiv.sum_comp revEquiv f

/-- The equilibrium populations at a cell always sum to the density, for any
velocity: the moment identities of the D2Q9 weights make the velocity terms
cancel. -/
lemma sum_Feq (rho ux uy : ℚ) : ∑ i : Fin 9, Feq rho ux uy i = rho := by
  simp [Feq, Fin.sum_univ_succ, cxs, cys, weights]
  ring

/-- The bounce-back write-back permutes the populations of a cell, so the
per-cell sum over the 9 directions is unchanged. -/
lemma sum_bounceBack {Ny Nx : ℕ} (cyl : Mask Ny Nx) (F : DistField Ny Nx)
    (y : ZMod Ny) (x : ZMod Nx) :
    ∑ i : Fin 9, bounceBack cyl F y x i = ∑ i : Fin 9, F y x i := by
  unfold bounceBack
  by_cases h : cyl y x = true
  · simp only [h, if_true]
    exact sum_comp_rev (F y x)
  · simp [h]

/-- Summing a two-index grid function after shifting both indices by group
subtraction (the periodic wrap of np.roll) leaves the total unchanged. -/
lemma shift_sum {Ny Nx : ℕ} [NeZero Ny] [NeZero Nx]
    (g : ZMod Ny → ZMod Nx → ℚ) (a : ZMod Ny) (b : ZMod Nx) :
    ∑ y : ZMod Ny, ∑ x : ZMod Nx, g (y - a) (x - b) =
    ∑ y : ZMod Ny, ∑ x : ZMod Nx, g y x := by
  have h1 : ∀ y : ZMod Ny, ∑ x : ZMod Nx, g y (x - b) = ∑ x : ZMod Nx, g y x :=
    fun y => Equiv.sum_comp (Equiv.subRight b) (g y)
  calc ∑ y : ZMod Ny, ∑ x : ZMod Nx, g (y - a) (x - b)
      = ∑ y : ZMod Ny, ∑ x : ZMod Nx, g (y - a) x :=
        Finset.sum_congr rfl fun y _ => h1 (y - a)
    _ = ∑ y : ZMod Ny, ∑ x : ZMod Nx, g y x :=
        Equiv.sum_comp (Equiv.subRight a) (fun y => ∑ x : ZMod Nx, g y x)

/-- Moving the direction sum outermost in a triple grid sum. -/
lemma sum_swap_dir {Ny Nx : ℕ} [NeZero Ny] [NeZero Nx]
    (g : ZMod Ny → ZMod Nx → Fin 9 → ℚ) :
    ∑ y : ZMod Ny, ∑ x : ZMod Nx, ∑ i : Fin 9, g y x i =
    ∑ i : Fin 9, ∑ y : ZMod Ny, ∑ x : ZMod Nx, g y x i := by
  calc ∑ y : ZMod Ny, ∑ x : ZMod Nx, ∑ i : Fin 9, g y x i
      = ∑ y : ZMod Ny, ∑ i : Fin 9, ∑ x : ZMod Nx, g y x i :=
        Finset.sum_congr rfl fun y _ => Finset.sum_comm
    _ = ∑ i : Fin 9, ∑ y : ZMod Ny, ∑ x : ZMod Nx, g y x i := Finset.sum_comm

end LBM

namespace LBM

/-- Simulation configuration: grid dimensions, relaxation time, step count,
obstacle centre and radius-like threshold. -/
structure Config where
  Nx : ℕ
  Ny : ℕ
  tau : ℚ
  Nt : ℕ
  cx0 : ℤ
  cy0 : ℤ
  r : ℤ

/-- Whether grid cell (x, y) lies strictly inside the obstacle disc of a
configuration. -/
def solidCell (c : Config) (x y : ℕ) : Prop :=
  ((x : ℤ) - c.cx0) ^ 2 + ((y : ℤ) - c.cy0) ^ 2 < c.r ^ 2

instance (c : Config) (x y : ℕ) : Decidable (solidCell c x y) := by
  unfold solidCell
  exact inferInstance

/-- Whether the obstacle disc pokes outside the grid: some potentially solid
cell index (within r - 1 of the centre on an axis) falls outside
[0, Nx) × [0, Ny). -/
def oobMask (c : Config) : Prop :=
  c.cx0 - (c.r - 1) < 0 ∨ (c.Nx : ℤ) ≤ c.cx0 + (c.r - 1) ∨
  c.cy0 - (c.r - 1) < 0 ∨ (c.Ny : ℤ) ≤ c.cy0 + (c.r - 1)

instance (c : Config) : Decidable (oobMask c) := by
  unfold oobMask
  exact inferInstance

/-- The fatal configuration error classes of the specification. -/
inductive ConfigError where
  | nonPositiveDims : ConfigError
  | nonPositiveTau : ConfigError
  | nonPositiveRadius : ConfigError
  | emptyMask : ConfigError
  | outOfBoundsMask : ConfigError
deriving DecidableEq

/-- Modelled from the spec: pre-run configuration validation (spec section 7)
is absent from src/, whose two files hard-code the parameters as literals;
the check rejects non-positive grid dimensions, non-positive tau,
a non-positive obstacle radius, and a radius/placement producing an empty or
out-of-bounds mask, in that order, before the time loop. -/
def validateConfig (c : Config) : Except ConfigError Unit :=
  if c.Nx = 0 ∨ c.Ny = 0 then .error .nonPositiveDims
  else if c.tau ≤ 0 then .error .nonPositiveTau
  else if c.r ≤ 0 then .error .nonPositiveRadius
  else if ∀ y < c.Ny, ∀ x < c.Nx, ¬ solidCell c x y then .error .emptyMask
  else if oobMask c then .error .outOfBoundsMask
  else .ok ()

/-- Modelled from the spec: the whole run validates the configuration first
and only then iterates the timestep Nt times on the initial field. -/
def runSim (c : Config) (F0 : DistField c.Ny c.Nx) :
    Except ConfigError (DistField c.Ny c.Nx) :=
  match validateConfig c with
  | .error e => .error e
  | .ok _ =>
      .ok ((stepField c.tau (cylinderMask c.Ny c.Nx c.cx0 c.cy0 c.r))^[c.Nt] F0)

/-- Modelled from the spec: the number of timesteps the run executes; zero
when validation fails, Nt otherwise. -/
def stepsExecuted (c : Config) : ℕ :=
  match validateConfig c with
  | .error _ => 0
  | .ok _ => c.Nt

/-- A uniform obstacle mask covering the whole 1 × 1 grid. -/
def allMask : Mask 1 1 := fun _ _ => true

/-- The empty obstacle mask on a 2 × 2 grid. -/
def noMask : Mask 2 2 := fun _ _ => false

/-- A constant unit field on a 2 × 2 grid. -/
def exField : DistField 2 2 := fun _ _ _ => 1

/-- A constant unit field on the 100 × 400 grid of the concrete run. -/
def exFieldA : DistField 100 400 := fun _ _ _ => 1

/-- Zero initial noise on a 2 × 2 grid. -/
def zeroNoise : DistField 2 2 := fun _ _ _ => 0

/-- A configuration with a zero-width grid, invalid per the specification. -/
def badConfig : Config := ⟨0, 100, 0.65, 1, 100, 50, 13⟩

/-- A constant unit field with the shape of badConfig. -/
def badF0 : DistField badConfig.Ny badConfig.Nx := fun _ _ _ => 1

end LBM

namespace LBM

/-- Claim C1: in every timestep the bounce-back stage follows the specified
order — the populations written back at exactly the obstacle cells are the
post-streaming populations reordered by the reversal permutation (direction i
receives the captured value of its opposite direction, so after write-back
each obstacle cell's population in direction i equals its post-streaming
population in the opposite direction, and non-obstacle cells are untouched);
rho, ux and uy entering the collision are moments of the just-streamed field
still holding the un-reflected values; and the reversal indeed pairs each
direction with its velocity-negated counterpart. -/
theorem bounce_back_stage_order {Ny Nx : ℕ} (tau : ℚ) (cyl : Mask Ny Nx)
    (F : DistField Ny Nx) :
    (∀ (y : ZMod Ny) (x : ZMod Nx) (i : Fin 9),
      bounceBack cyl (preF F) y x i =
        if cyl y x then preF F y x (rev i) else preF F y x i) ∧
    (∀ (y : ZMod Ny) (x : ZMod Nx),
      stepRho F y x = ∑ i : Fin 9, preF F y x i) ∧
    (∀ (y : ZMod Ny) (x : ZMod Nx),
      stepUx cyl F y x = (if cyl y x then 0 else uxOf (preF F) y x) ∧
      stepUy cyl F y x = (if cyl y x then 0 else uyOf (preF F) y x)) ∧
    (∀ (y : ZMod Ny) (x : ZMod Nx) (i : Fin 9),
      stepField tau cyl F y x i =
        bounceBack cyl (preF F) y x i
          + -(1 / tau) * (bounceBack cyl (preF F) y x i
              - Feq (stepRho F y x) (stepUx cyl F y x) (stepUy cyl F y x) i)) ∧
    (∀ i : Fin 9, cxs (rev i) = -cxs i ∧ cys (rev i) = -cys i) := by
  refine ⟨fun y x i => rfl, fun y x => rfl, fun y x => ⟨rfl, rfl⟩,
    fun y x i => rfl, by decide⟩

/-- Claim C2: after any completed timestep the macroscopic velocity is
exactly 0 at every obstacle cell; in particular, in the concrete run
(Nx = 400, Ny = 100, centre (100, 50), threshold 13), after one step every
cell at Euclidean distance below 13 from the centre has ux = uy = 0 and
velocity magnitude 0 in the emitted snapshot (a function on the
100 × 400 index space, its shape). -/
theorem obstacle_velocity_pinning :
    (∀ (Ny Nx : ℕ) (cyl : Mask Ny Nx) (F : DistField Ny Nx)
       (y : ZMod Ny) (x : ZMod Nx), cyl y x = true →
      stepUx cyl F y x = 0 ∧ stepUy cyl F y x = 0) ∧
    (∀ (F : DistField 100 400) (y : ZMod 100) (x : ZMod 400),
      ((x.val : ℤ) - 100) ^ 2 + ((y.val : ℤ) - 50) ^ 2 < 169 →
      stepUx scenarioA F y x = 0 ∧ stepUy scenarioA F y x = 0 ∧
      velMagSq scenarioA F y x = 0 ∧
      Real.sqrt ((velMagSq scenarioA F y x : ℚ) : ℝ) = 0) := by
  constructor
  · intro Ny Nx cyl F y x h
    exact ⟨by simp [stepUx, h], by simp [stepUy, h]⟩
  · intro F y x h
    have hm : scenarioA y x = true := by
      simp only [scenarioA, cylinderMask, decide_eq_true_eq]
      norm_num
      exact h
    have h1 : stepUx scenarioA F y x = 0 := by simp [stepUx, hm]
    have h2 : stepUy scenarioA F y x = 0 := by simp [stepUy, hm]
    have h3 : velMagSq scenarioA F y x = 0 := by simp [velMagSq, h1, h2]
    refine ⟨h1, h2, h3, ?_⟩
    rw [h3]
    simp

/-- Witness for C2 at the obstacle centre cell (x, y) = (100, 50) of the
concrete run, with a constant unit initial field. -/
theorem obstacle_velocity_pinning_witness :
    ((((100 : ZMod 400).val : ℤ) - 100) ^ 2
      + (((50 : ZMod 100).val : ℤ) - 50) ^ 2 < 169) ∧
    stepUx scenarioA exFieldA 50 100 = 0 :=
  ⟨by decide, (obstacle_velocity_pinning.2 exFieldA 50 100 (by decide)).1⟩

/-- Claim C3: at a cell at rest (ux = uy = 0) the equilibrium distribution
reduces to Feq_i = rho * w_i for every direction, and it sums to rho. -/
theorem equilibrium_at_rest (rho ux uy : ℚ) (hx : ux = 0) (hy : uy = 0) :
    (∀ i : Fin 9, Feq rho ux uy i = rho * weights i) ∧
    ∑ i : Fin 9, Feq rho ux uy i = rho := by
  subst hx
  subst hy
  exact ⟨fun i => by simp [Feq], sum_Feq rho 0 0⟩

/-- Witness for C3 at rho = 5, ux = uy = 0. -/
theorem equilibrium_at_rest_witness :
    (0 : ℚ) = 0 ∧ (0 : ℚ) = 0 ∧
    ((∀ i : Fin 9, Feq 5 0 0 i = 5 * weights i) ∧
      ∑ i : Fin 9, Feq 5 0 0 i = 5) :=
  ⟨rfl, rfl, equilibrium_at_rest 5 0 0 rfl rfl⟩

/-- Claim C4: the streaming step alone (periodic roll of each direction
plane, no boundary overwrite, no obstacle) preserves the total sum of the
distribution field over all cells and directions. -/
theorem streaming_conserves_mass (Ny Nx : ℕ) [NeZero Ny] [NeZero Nx]
    (F : DistField Ny Nx) :
    ∑ y : ZMod Ny, ∑ x : ZMod Nx, ∑ i : Fin 9, streamStep F y x i =
    ∑ y : ZMod Ny, ∑ x : ZMod Nx, ∑ i : Fin 9, F y x i := by
  rw [sum_swap_dir (streamStep F), sum_swap_dir F]
  refine Finset.sum_congr rfl fun i _ => ?_
  simp only [streamStep]
  exact shift_sum (fun y x => F y x i) ((cys i : ZMod Ny)) ((cxs i : ZMod Nx))

/-- Witness for C4 on a 2 × 2 grid with a constant unit field. -/
theorem streaming_conserves_mass_witness :
    ∑ y : ZMod 2, ∑ x : ZMod 2, ∑ i : Fin 9, streamStep exField y x i =
    ∑ y : ZMod 2, ∑ x : ZMod 2, ∑ i : Fin 9, exField y x i :=
  streaming_conserves_mass 2 2 exField

/-- Claim C5: the 9 lattice weights sum to exactly 1; the reversal
permutation is an involution, hence applying it twice is the identity on
any 9-vector; and it maps each direction to one with negated velocity
components (the direction set is closed under reversal). -/
theorem lattice_weights_and_reversal :
    (∑ i : Fin 9, weights i = 1) ∧
    (∀ (v : Fin 9 → ℚ) (i : Fin 9), v (rev (rev i)) = v i) ∧
    (∀ i : Fin 9, cxs (rev i) = -cxs i ∧ cys (rev i) = -cys i) := by
  refine ⟨by norm_num [Fin.sum_univ_succ, weights],
    fun v i => by rw [rev_rev], by decide⟩

/-- Claim C6: the obstacle mask marks cell (x, y) solid iff its Euclidean
distance to the configured centre is strictly below the configured
threshold (the diameter parameter used directly as radius); the mask is a
pure function of the grid, centre and threshold (it is a Lean function of
exactly those arguments, built once and never rebuilt by the step
pipeline, which takes it as an immutable parameter). -/
theorem cylinder_mask_iff_distance (Ny Nx : ℕ) (cx0 cy0 r : ℤ) (hr : 0 < r)
    (y : ZMod Ny) (x : ZMod Nx) :
    cylinderMask Ny Nx cx0 cy0 r y x = true ↔
      distance (cx0 : ℝ) (cy0 : ℝ) (x.val : ℝ) (y.val : ℝ) < (r : ℝ) := by
  unfold cylinderMask distance
  rw [decide_eq_true_eq, Real.sqrt_lt' (by exact_mod_cast hr)]
  constructor <;> intro h <;> exact_mod_cast h

/-- Witness for C6 at the concrete mask (threshold 13) and the centre cell. -/
theorem cylinder_mask_iff_distance_witness :
    (0 : ℤ) < 13 ∧
    (cylinderMask 100 400 100 50 13 (50 : ZMod 100) (100 : ZMod 400) = true ↔
      distance ((100 : ℤ) : ℝ) ((50 : ℤ) : ℝ) (((100 : ZMod 400).val : ℝ))
        (((50 : ZMod 100).val : ℝ)) < ((13 : ℤ) : ℝ)) :=
  ⟨by decide, cylinder_mask_iff_distance 100 400 100 50 13 (by decide) 50 100⟩

/-- Claim C7: every invalid configuration — non-positive grid dimensions,
non-positive tau, non-positive obstacle radius, or a radius/placement
producing an empty or out-of-bounds mask — is rejected with a fatal
ConfigError before the time loop, and no timestep is executed for it. -/
theorem config_validated_before_loop (c : Config) (F0 : DistField c.Ny c.Nx)
    (h : c.Nx = 0 ∨ c.Ny = 0 ∨ c.tau ≤ 0 ∨ c.r ≤ 0 ∨
      (∀ y < c.Ny, ∀ x < c.Nx, ¬ solidCell c x y) ∨ oobMask c) :
    ∃ e, validateConfig c = Except.error e ∧
      runSim c F0 = Except.error e ∧ stepsExecuted c = 0 := by
  cases veq : validateConfig c with
  | error e =>
      exact ⟨e, rfl, by simp [runSim, veq], by simp [stepsExecuted, veq]⟩
  | ok u =>
      exfalso
      unfold validateConfig at veq
      split_ifs at veq with h1 h2 h3 h4 h5
      push_neg at h1
      rcases h with h | h | h | h | h | h
      · exact h1.1 h
      · exact h1.2 h
      · exact h2 h
      · exact h3 h
      · exact h4 h
      · exact h5 h

/-- Witness for C7: a configuration with Nx = 0 is rejected. -/
theorem config_validated_before_loop_witness :
    (badConfig.Nx = 0 ∨ badConfig.Ny = 0 ∨ badConfig.tau ≤ 0 ∨
      badConfig.r ≤ 0 ∨
      (∀ y < badConfig.Ny, ∀ x < badConfig.Nx, ¬ solidCell badConfig x y) ∨
      oobMask badConfig) ∧
    ∃ e, validateConfig badConfig = Except.error e ∧
      runSim badConfig badF0 = Except.error e ∧
      stepsExecuted badConfig = 0 :=
  ⟨Or.inl rfl, config_validated_before_loop badConfig badF0 (Or.inl rfl)⟩

/-- Claim C8: two runs with the same configuration and the same RNG seed
(hence the same initial noise) produce identical distribution fields at
every timestep — the per-step pipeline is a pure function of the current
field, tau and the obstacle mask, so equal noise gives equal trajectories. -/
theorem determinism_same_seed {Ny Nx : ℕ} (tau : ℚ) (cyl : Mask Ny Nx)
    (noise1 noise2 : DistField Ny Nx) (h : noise1 = noise2) (n : ℕ) :
    (stepField tau cyl)^[n] (initField noise1) =
    (stepField tau cyl)^[n] (initField noise2) := by
  rw [h]

/-- Witness for C8: two steps on a 2 × 2 grid with identical zero noise. -/
theorem determinism_same_seed_witness :
    zeroNoise = zeroNoise ∧
    (stepField 1 noMask)^[2] (initField zeroNoise) =
      (stepField 1 noMask)^[2] (initField zeroNoise) :=
  ⟨rfl, determinism_same_seed 1 noMask zeroNoise zeroNoise rfl 2⟩

/-- Claim C9: in exact arithmetic the equilibrium populations sum to rho for
every rho, ux, uy (by the D2Q9 moment identities), the per-cell sum of the
field entering collision equals the rho the step computed (the bounce-back
write-back only permutes populations), and therefore the BGK update
F += -(1/tau)(F - Feq) leaves every per-cell 9-direction sum unchanged —
at fluid cells and obstacle cells alike. -/
theorem collision_conserves_mass :
    (∀ rho ux uy : ℚ, ∑ i : Fin 9, Feq rho ux uy i = rho) ∧
    (∀ (Ny Nx : ℕ) (tau : ℚ) (cyl : Mask Ny Nx) (F : DistField Ny Nx)
       (y : ZMod Ny) (x : ZMod Nx),
      (∑ i : Fin 9, bounceBack cyl (preF F) y x i = stepRho F y x) ∧
      ∑ i : Fin 9, stepField tau cyl F y x i = stepRho F y x) := by
  refine ⟨sum_Feq, ?_⟩
  intro Ny Nx tau cyl F y x
  have hb : ∑ i : Fin 9, bounceBack cyl (preF F) y x i = stepRho F y x :=
    sum_bounceBack cyl (preF F) y x
  refine ⟨hb, ?_⟩
  have hsplit : ∑ i : Fin 9, stepField tau cyl F y x i
      = (∑ i : Fin 9, bounceBack cyl (preF F) y x i)
        + -(1 / tau) * ((∑ i : Fin 9, bounceBack cyl (preF F) y x i)
            - ∑ i : Fin 9,
                Feq (stepRho F y x) (stepUx cyl F y x) (stepUy cyl F y x) i) := by
    simp only [stepField]
    rw [Finset.sum_add_distrib, ← Finset.mul_sum, Finset.sum_sub_distrib]
  rw [hsplit, hb, sum_Feq]
  ring

/-- Claim C10: the per-timestep updates of src/lbm_simulation.py and
src/main_v1.py compute the same transformation of the distribution field
for the same tau, field and obstacle mask; the translation already
identifies `F[cylinder, :]` (a copy, by numpy advanced-indexing semantics)
with `F[cylinder, :].copy()`, and the out-of-place `F = F + -(1/tau)*(F -
Feq)` with the in-place `F += -(1/tau)*(F - Feq)`, and the two step
functions are equal. -/
theorem v1_step_equals_current {Ny Nx : ℕ} (tau : ℚ) (cyl : Mask Ny Nx)
    (F : DistField Ny Nx) :
    LBMv1.stepField tau cyl F = stepField tau cyl F := rfl

end LBM
